import Mathlib

/-!
Verification of the GitHub release-resolution core of `pkg/providers/github.go`.

The Go source is shallowly embedded:
  * machine strings are Lean `String`s; Go `strings.Split(path, "/")`,
    `strings.Join`, `strings.Contains` are re-implemented structurally
    (`goSplitSlash`, `goJoin`, `goContains`) so that the kernel can
    evaluate them;
  * fallible Go calls returning `(value, error)` become `Except GoError`;
    a Go runtime panic (out-of-range slice or index) is made explicit as
    an error value instead of being undefined behaviour;
  * the GitHub API client and the `assets` collaborators are external
    boundaries: they are passed in as records of functions
    (`Client`, `Collaborators`);
  * every outbound provider call is recorded in a trace (`List ClientCall`)
    together with the `context.Context` value that was passed to it, so
    that call-order and context-threading claims become statements about
    the trace;
  * `sha256.New()` is modelled as a fresh accumulator holding the list of
    bytes fed so far (empty at construction), and `hashSum` is a full
    executable SHA-256 over those bytes, so "feeding zero bytes yields the
    well-known empty digest" is checkable by evaluation.
-/

/-! ## Go string primitives used by `newGitHub` -/

/-- Go `strings.Split(s, "/")`: split on every `/`, keeping empty pieces;
`Split("", "/") = [""]`. Defined structurally over the character list. -/
def splitSlashAux : List Char → List Char → List String
  | [], acc => [String.mk acc.reverse]
  | c :: rest, acc =>
    if c = '/' then String.mk acc.reverse :: splitSlashAux rest []
    else splitSlashAux rest (c :: acc)

/-- Go `strings.Split(s, "/")`. -/
def goSplitSlash (s : String) : List String :=
  splitSlashAux s.toList []

/-- Go `strings.Join(elems, sep)`. -/
def goJoin : List String → String → String
  | [], _ => ""
  | [x], _ => x
  | x :: y :: rest, sep => x ++ sep ++ goJoin (y :: rest) sep

/-- Whether `sub` occurs at the start of the character list. -/
def listStartsWith : List Char → List Char → Bool
  | _, [] => true
  | [], _ :: _ => false
  | c :: cs, d :: ds => c = d && listStartsWith cs ds

/-- Whether `sub` occurs anywhere in the character list. -/
def listContainsSub : List Char → List Char → Bool
  | [], sub => sub.isEmpty
  | c :: cs, sub => listStartsWith (c :: cs) sub || listContainsSub cs sub

/-- Go `strings.Contains(s, sub)`. -/
def goContains (s sub : String) : Bool :=
  listContainsSub s.toList sub.toList

/-! ## Errors -/

/-- A Go runtime panic made explicit (slice/index out of range). -/
inductive GoPanic
  | indexOutOfRange
deriving Repr, DecidableEq

/-- A Go `error` value crossing the provider boundary.  `errorResponse`
models `*github.ErrorResponse` with its `Response.StatusCode`; `other`
models every other error (network, auth, rate-limit, collaborator
failures). -/
inductive GoError
  | errorResponse (statusCode : Nat) (message : String)
  | other (message : String)
deriving Repr, DecidableEq

/-- The type-switch-and-status test in `getAnyLatestRelease`:
`err.(*github.ErrorResponse)` succeeds and
`ghErrResp.Response.StatusCode == http.StatusNotFound` (404). -/
def isNotFoundErrorResponse : GoError → Bool
  | GoError.errorResponse statusCode _ => statusCode == 404
  | GoError.other _ => false

/-- Outcome of `newGitHub`: the `fmt.Errorf` parse failure, or an explicit
runtime panic. -/
inductive ParseError
  | malformedReference
  | panicked (p : GoPanic)
deriving Repr, DecidableEq

/-! ## Provider data model (go-github shapes) -/

/-- `github.ReleaseAsset`: pointer-typed fields; `GetName`/
`GetBrowserDownloadURL` return `""` for a nil pointer. -/
structure ReleaseAsset where
  name : Option String
  browserDownloadURL : Option String
deriving Repr, DecidableEq

def ReleaseAsset.getName (a : ReleaseAsset) : String :=
  a.name.getD ""

def ReleaseAsset.getBrowserDownloadURL (a : ReleaseAsset) : String :=
  a.browserDownloadURL.getD ""

/-- `github.RepositoryRelease`. -/
structure RepositoryRelease where
  tagName : Option String
  htmlURL : Option String
  assets : List ReleaseAsset
deriving Repr, DecidableEq

def RepositoryRelease.getTagName (r : RepositoryRelease) : String :=
  r.tagName.getD ""

def RepositoryRelease.getHTMLURL (r : RepositoryRelease) : String :=
  r.htmlURL.getD ""

/-- `github.ListOptions` (zero value for `Page` when only `PerPage` is set). -/
structure ListOptions where
  page : Nat
  perPage : Nat
deriving Repr, DecidableEq

/-- `context.Context` values, kept opaque.  `todo` is `context.TODO()` and
`background` is `context.Background()`: empty contexts that are never
cancelled.  `cancellable` stands for a caller-constructed context carrying
a deadline or cancel function. -/
inductive Ctx
  | todo
  | background
  | cancellable (id : Nat)
deriving Repr, DecidableEq

/-- Whether a context value can ever be cancelled / expire. -/
def ctxCancellationAware : Ctx → Bool
  | Ctx.cancellable _ => true
  | _ => false

/-- One outbound call to the GitHub API client, with the context value
that was passed to it. -/
inductive ClientCall
  | getReleaseByTag (ctx : Ctx) (owner repo tag : String)
  | getLatestRelease (ctx : Ctx) (owner repo : String)
  | listReleases (ctx : Ctx) (owner repo : String) (opts : ListOptions)
deriving Repr, DecidableEq

/-- The context value a call carried. -/
def ClientCall.callCtx : ClientCall → Ctx
  | ClientCall.getReleaseByTag ctx _ _ _ => ctx
  | ClientCall.getLatestRelease ctx _ _ => ctx
  | ClientCall.listReleases ctx _ _ _ => ctx

/-- The GitHub API client boundary (`g.client.Repositories`): behaviour of
the three operations the source calls.  The responses do not depend on the
context value (which only carries cancellation); the context actually
passed is recorded in the call trace instead. -/
structure Client where
  getReleaseByTag : String → String → String → Except GoError RepositoryRelease
  getLatestRelease : String → String → Except GoError RepositoryRelease
  listReleases : String → String → ListOptions → Except GoError (List RepositoryRelease)

/-! ## URL parsing: `newGitHub` -/

/-- The `gitHub` provider struct (the `client` field is the constructed
API client handle and is modelled at the `Fetch`/`GetLatestVersion`
boundary instead). -/
structure gitHub where
  url : String
  owner : String
  repo : String
  tag : String
deriving Repr, DecidableEq

/-- The tag-extraction loop of `newGitHub`:
`for i, p := range ps { if p == "releases" { tag = strings.Join(ps[i+2:], "/") } }`.
`ps` is the full split; the recursion walks it with the running index.
Go panics when the slice low bound `i+2` exceeds `len(ps)`. -/
def tagLoopAux (ps : List String) : List String → Nat → String → Except GoPanic String
  | [], _, tag => Except.ok tag
  | p :: rest, i, tag =>
    if p = "releases" then
      if ps.length < i + 2 then Except.error GoPanic.indexOutOfRange
      else tagLoopAux ps rest (i + 1) (goJoin (ps.drop (i + 2)) "/")
    else tagLoopAux ps rest (i + 1) tag

/-- The complete tag-extraction loop over the split path. -/
def tagLoop (ps : List String) : Except GoPanic String :=
  tagLoopAux ps ps 0 ""

/-- `newGitHub(u *url.URL)`.  `path` is `u.Path`.  Reading
`GITHUB_AUTH_TOKEN` and constructing the oauth/http client are external
I/O and do not affect owner/repo/tag extraction.  Go evaluates the tag
loop (which may panic) before indexing `s[1]` and `s[2]`; `s[2]` panics
whenever the split has exactly two pieces (the `len(s) < 2` guard does not
exclude that case). -/
def newGitHub (path : String) : Except ParseError gitHub :=
  let s := goSplitSlash path
  if s.length < 2 then
    Except.error ParseError.malformedReference
  else
    let tagRes : Except GoPanic String :=
      if goContains path "/releases/" then tagLoop s else Except.ok ""
    match tagRes with
    | Except.error p => Except.error (ParseError.panicked p)
    | Except.ok tag =>
      match s[1]?, s[2]? with
      | some owner, some repo =>
        Except.ok { url := path, owner := owner, repo := repo, tag := tag }
      | _, _ => Except.error (ParseError.panicked GoPanic.indexOutOfRange)

/-! ## Release resolution -/

/-- `getAnyLatestRelease(ctx)`: try `GetLatestRelease`; on a 404
`*github.ErrorResponse` specifically, list one page of releases and take
the first entry; an error from listing replaces the original error; an
empty listing falls through to `return nil, err` with the original error;
any non-404 (or non-`ErrorResponse`) error is returned without fallback.
The second component is the trace of outbound client calls. -/
def getAnyLatestRelease (c : Client) (ctx : Ctx) (owner repo : String) :
    Except GoError RepositoryRelease × List ClientCall :=
  match c.getLatestRelease owner repo with
  | Except.ok release =>
    (Except.ok release, [ClientCall.getLatestRelease ctx owner repo])
  | Except.error err =>
    if isNotFoundErrorResponse err then
      let calls := [ClientCall.getLatestRelease ctx owner repo,
                    ClientCall.listReleases ctx owner repo { page := 0, perPage := 1 }]
      match c.listReleases owner repo { page := 0, perPage := 1 } with
      | Except.error listErr => (Except.error listErr, calls)
      | Except.ok releases =>
        match releases with
        | r :: _ => (Except.ok r, calls)
        | [] => (Except.error err, calls)
    else
      (Except.error err, [ClientCall.getLatestRelease ctx owner repo])

/-- The release-selection branch at the top of `Fetch`: pinned tag via
`GetReleaseByTag(context.TODO(), ...)` when `len(g.tag) > 0`, otherwise
`getAnyLatestRelease(context.TODO())`. -/
def fetchRelease (g : gitHub) (c : Client) :
    Except GoError RepositoryRelease × List ClientCall :=
  if 0 < g.tag.length then
    (c.getReleaseByTag g.owner g.repo g.tag,
     [ClientCall.getReleaseByTag Ctx.todo g.owner g.repo g.tag])
  else
    getAnyLatestRelease c Ctx.todo g.owner g.repo

/-! ## Asset candidates and collaborators -/

/-- Modelled from the spec: `assets.Asset` is declared in `pkg/assets`
(outside the shown source); its shape `{Name, URL}` is fixed by the
composite literal in `Fetch` and by §3's Asset Candidate. -/
structure Asset where
  name : String
  url : String
deriving Repr, DecidableEq

/-- The candidate-building loop in `Fetch`:
`for _, a := range release.Assets { candidates = append(candidates, &assets.Asset{...}) }`. -/
def buildCandidates (as : List ReleaseAsset) : List Asset :=
  as.foldl
    (fun candidates a =>
      candidates ++ [{ name := a.getName, url := a.getBrowserDownloadURL }])
    []

/-- Opaque handle for the processed local byte stream returned by
`assets.ProcessURL`. -/
abbrev FileData := String

/-- Modelled from the spec: `assets.FilterAssets`, `assets.ProcessURL` and
`assets.SanitizeName` live in `pkg/assets` (outside the shown source) and
are documented as black boxes with exactly these signatures (§6), so they
are passed in as a record of functions. -/
structure Collaborators where
  filterAssets : String → List Asset → Except GoError Asset
  processURL : Asset → Except GoError (String × FileData)
  sanitizeName : String → String → String

/-! ## SHA-256 (model of Go `crypto/sha256`) -/

/-- 2^32, the word modulus. -/
def w32 : Nat := 4294967296

/-- Right-rotation of a 32-bit word. -/
def rotr32 (x n : Nat) : Nat :=
  ((x >>> n) ||| (x <<< (32 - n))) % w32

def smallSigma0 (x : Nat) : Nat := rotr32 x 7 ^^^ rotr32 x 18 ^^^ (x >>> 3)

def smallSigma1 (x : Nat) : Nat := rotr32 x 17 ^^^ rotr32 x 19 ^^^ (x >>> 10)

def bigSigma0 (x : Nat) : Nat := rotr32 x 2 ^^^ rotr32 x 13 ^^^ rotr32 x 22

def bigSigma1 (x : Nat) : Nat := rotr32 x 6 ^^^ rotr32 x 11 ^^^ rotr32 x 25

/-- The 64 SHA-256 round constants (FIPS 180-4, written in decimal). -/
def sha256K : List Nat :=
  [1116352408, 1899447441, 3049323471, 3921009573, 961987163,
   1508970993, 2453635748, 2870763221, 3624381080, 310598401,
   607225278, 1426881987, 1925078388, 2162078206, 2614888103,
   3248222580, 3835390401, 4022224774, 264347078, 604807628,
   770255983, 1249150122, 1555081692, 1996064986, 2554220882,
   2821834349, 2952996808, 3210313671, 3336571891, 3584528711,
   113926993, 338241895, 666307205, 773529912, 1294757372,
   1396182291, 1695183700, 1986661051, 2177026350, 2456956037,
   2730485921, 2820302411, 3259730800, 3345764771, 3516065817,
   3600352804, 4094571909, 275423344, 430227734, 506948616,
   659060556, 883997877, 958139571, 1322822218, 1537002063,
   1747873779, 1955562222, 2024104815, 2227730452, 2361852424,
   2428436474, 2756734187, 3204031479, 3329325298]

/-- The initial SHA-256 state (FIPS 180-4, written in decimal). -/
def sha256H0 : List Nat :=
  [1779033703, 3144134277, 1013904242, 2773480762,
   1359893119, 2600822924, 528734635, 1541459225]

/-- Big-endian 8-byte encoding of a length in bits. -/
def beBytes8 (n : Nat) : List Nat :=
  [n / 2 ^ 56 % 256, n / 2 ^ 48 % 256, n / 2 ^ 40 % 256, n / 2 ^ 32 % 256,
   n / 2 ^ 24 % 256, n / 2 ^ 16 % 256, n / 2 ^ 8 % 256, n % 256]

/-- SHA-256 padding: `0x80`, zeros to 56 mod 64, then the bit length. -/
def sha256Pad (msg : List Nat) : List Nat :=
  let k := (120 - (msg.length + 1) % 64) % 64
  msg ++ [0x80] ++ List.replicate k 0 ++ beBytes8 (msg.length * 8)

/-- Big-endian 32-bit words from bytes. -/
def toWords : List Nat → List Nat
  | b0 :: b1 :: b2 :: b3 :: rest =>
    (((b0 * 256 + b1) * 256 + b2) * 256 + b3) :: toWords rest
  | _ => []

/-- Fuel-bounded 64-byte chunking (fuel `length + 1` always suffices). -/
def toBlocksAux : Nat → List Nat → List (List Nat)
  | 0, _ => []
  | fuel + 1, bytes =>
    if bytes.isEmpty then []
    else bytes.take 64 :: toBlocksAux fuel (bytes.drop 64)

/-- The padded message split into 64-byte blocks. -/
def toBlocks (bytes : List Nat) : List (List Nat) :=
  toBlocksAux (bytes.length + 1) bytes

/-- Extend 16 message-schedule words to 64. -/
def extendSchedule (ws : List Nat) : List Nat :=
  (List.range 48).foldl
    (fun acc _ =>
      let n := acc.length
      acc ++ [(smallSigma1 (acc.getD (n - 2) 0) + acc.getD (n - 7) 0 +
               smallSigma0 (acc.getD (n - 15) 0) + acc.getD (n - 16) 0) % w32])
    ws

/-- One SHA-256 compression step over a 64-byte block. -/
def compressBlock (h : List Nat) (block : List Nat) : List Nat :=
  let ws := extendSchedule (toWords block)
  let st0 := (h.getD 0 0, h.getD 1 0, h.getD 2 0, h.getD 3 0,
              h.getD 4 0, h.getD 5 0, h.getD 6 0, h.getD 7 0)
  let stN := (List.zip sha256K ws).foldl
    (fun st kw =>
      let (a, b, c, d, e, f, g, hh) := st
      let ch := (e &&& f) ^^^ ((w32 - 1 - e) &&& g)
      let maj := (a &&& b) ^^^ (a &&& c) ^^^ (b &&& c)
      let t1 := (hh + bigSigma1 e + ch + kw.1 + kw.2) % w32
      let t2 := (bigSigma0 a + maj) % w32
      ((t1 + t2) % w32, a, b, c, (d + t1) % w32, e, f, g))
    st0
  let (a, b, c, d, e, f, g, hh) := stN
  List.zipWith (fun x y => (x + y) % w32) h [a, b, c, d, e, f, g, hh]

/-- SHA-256 digest of a byte list, as 32 bytes. -/
def sha256 (msg : List Nat) : List Nat :=
  let finalH := (toBlocks (sha256Pad msg)).foldl compressBlock sha256H0
  finalH.foldr
    (fun w acc => [w / 2 ^ 24 % 256, w / 2 ^ 16 % 256, w / 2 ^ 8 % 256, w % 256] ++ acc)
    []

/-- The well-known SHA-256 digest of the empty input,
`e3b0c44298fc1c149afbf4c8996fb92427ae41e4649b934ca495991b7852b855`,
written as decimal bytes. -/
def sha256EmptyDigest : List Nat :=
  [227, 176, 196, 66, 152, 252, 28, 20,
   154, 251, 244, 200, 153, 111, 185, 36,
   39, 174, 65, 228, 100, 155, 147, 76,
   164, 149, 153, 27, 120, 82, 184, 85]

/-- `sha256.New()`: a fresh hash accumulator, modelled as the list of
bytes fed to it so far — empty at construction. -/
def sha256New : List Nat := []

/-- `Sum` of the accumulator: the SHA-256 digest of the bytes fed so far. -/
def hashSum (fed : List Nat) : List Nat := sha256 fed

/-! ## The artifact and the two entry points -/

/-- Modelled from the spec: the `File` struct is declared elsewhere in the
`providers` package (outside the shown source); its shape
`{Data, Name, Hash, Version}` is fixed by the composite literal in `Fetch`
and by §3's Artifact.  `hash` holds the accumulator state: the bytes fed
so far. -/
structure File where
  data : FileData
  name : String
  hash : List Nat
  version : String
deriving Repr, DecidableEq

/-- `Fetch()`: resolve the release (pinned tag or latest-with-fallback,
both under `context.TODO()`), project the release assets into candidates,
run the external selector and processor, and assemble the artifact with a
fresh SHA-256 accumulator.  The second component is the trace of outbound
client calls. -/
def Fetch (g : gitHub) (c : Client) (ext : Collaborators) :
    Except GoError File × List ClientCall :=
  let rc := fetchRelease g c
  match rc.1 with
  | Except.error err => (Except.error err, rc.2)
  | Except.ok release =>
    let candidates := buildCandidates release.assets
    match ext.filterAssets g.repo candidates with
    | Except.error e => (Except.error e, rc.2)
    | Except.ok gf =>
      match ext.processURL gf with
      | Except.error e => (Except.error e, rc.2)
      | Except.ok (name, outputFile) =>
        let version := release.getTagName
        (Except.ok { data := outputFile,
                     name := ext.sanitizeName name version,
                     hash := sha256New,
                     version := version }, rc.2)

/-- `GetLatestVersion()`: `getAnyLatestRelease(context.TODO())`, then the
tag name and HTML URL of the release. -/
def GetLatestVersion (g : gitHub) (c : Client) :
    Except GoError (String × String) × List ClientCall :=
  match getAnyLatestRelease c Ctx.todo g.owner g.repo with
  | (Except.error err, calls) => (Except.error err, calls)
  | (Except.ok release, calls) =>
    (Except.ok (release.getTagName, release.getHTMLURL), calls)

/-! ## Concrete witness data -/

/-- A client whose behaviour is fixed by three response tables; contexts
play no role in responses. -/
def mkClient (byTag : Except GoError RepositoryRelease)
    (latest : Except GoError RepositoryRelease)
    (listed : Except GoError (List RepositoryRelease)) : Client :=
  { getReleaseByTag := fun _ _ _ => byTag
    getLatestRelease := fun _ _ => latest
    listReleases := fun _ _ _ => listed }

/-- Identity-ish collaborators for witnesses: selector picks the first
candidate, processing returns the candidate name and its URL as the data
handle, sanitization appends the version. -/
def wCollab : Collaborators :=
  { filterAssets := fun _ candidates =>
      match candidates with
      | [] => Except.error (GoError.other "no candidates")
      | a :: _ => Except.ok a
    processURL := fun a => Except.ok (a.name, a.url)
    sanitizeName := fun n v => n ++ "-" ++ v }

/-- A release with two assets used by several witnesses. -/
def wRelease1 : RepositoryRelease :=
  { tagName := some "v1.0.0"
    htmlURL := some "https://example.invalid/r1"
    assets := [{ name := some "bin_linux_amd64", browserDownloadURL := some "https://example.invalid/a1" },
               { name := some "bin_darwin_amd64", browserDownloadURL := some "https://example.invalid/a2" }] }

/-- A second release used as the trailing list entry in witnesses. -/
def wRelease2 : RepositoryRelease :=
  { tagName := some "v0.9.0"
    htmlURL := some "https://example.invalid/r2"
    assets := [] }

/-- The 404 `ErrorResponse` used by witnesses. -/
def wNotFound : GoError := GoError.errorResponse 404 "Not Found"

/-- An unpinned provider handle used by witnesses. -/
def wLatestHandle : gitHub :=
  { url := "/marcosnils/bin", owner := "marcosnils", repo := "bin", tag := "" }

/-- A pinned provider handle used by witnesses. -/
def wPinnedHandle : gitHub :=
  { url := "/marcosnils/bin/releases/tag/v1.0.0", owner := "marcosnils",
    repo := "bin", tag := "v1.0.0" }

/-- Client for the C1 witness: latest is 404, listing has two entries. -/
def wClientFallback : Client :=
  mkClient (Except.error (GoError.other "unused"))
    (Except.error wNotFound) (Except.ok [wRelease1, wRelease2])

/-- Client for the C2 witness: latest is 404, listing is empty. -/
def wClientEmptyList : Client :=
  mkClient (Except.error (GoError.other "unused"))
    (Except.error wNotFound) (Except.ok [])

/-- Client for the C10 witness: latest is 404, listing itself fails. -/
def wClientListError : Client :=
  mkClient (Except.error (GoError.other "unused"))
    (Except.error wNotFound) (Except.error (GoError.other "listing failed"))

/-- Client for the C5 witness: the pinned tag does not exist. -/
def wClientNoSuchTag : Client :=
  mkClient (Except.error (GoError.other "no such tag"))
    (Except.error (GoError.other "unused")) (Except.ok [])

/-- Client for the C8 witness: the pinned tag resolves. -/
def wClientPinnedOk : Client :=
  mkClient (Except.ok wRelease1)
    (Except.error (GoError.other "unused")) (Except.ok [])

/-- Client for the C9 theorems: latest succeeds directly. -/
def wClientLatestOk : Client :=
  mkClient (Except.error (GoError.other "unused"))
    (Except.ok wRelease1) (Except.ok [])

/-! ## Helper lemmas -/

/-- Folding append-of-singletons is `map`. -/
theorem foldl_append_singleton_eq_map {α β : Type} (f : α → β) (l : List α) :
    ∀ init : List β, l.foldl (fun acc a => acc ++ [f a]) init = init ++ l.map f := by
  induction l with
  | nil => intro init; simp
  | cons a rest ih => intro init; simp [ih]

/-- `buildCandidates` is the pointwise projection of the asset list. -/
theorem buildCandidates_eq_map (as : List ReleaseAsset) :
    buildCandidates as =
      as.map (fun a => { name := a.getName, url := a.getBrowserDownloadURL }) := by
  unfold buildCandidates
  simpa using foldl_append_singleton_eq_map
    (fun a : ReleaseAsset =>
      ({ name := a.getName, url := a.getBrowserDownloadURL } : Asset)) as []

/-- The trace of `getAnyLatestRelease` is either the single latest-call or
the latest-call followed by the one-page listing call. -/
theorem anyLatest_trace_shape (c : Client) (ctx : Ctx) (owner repo : String) :
    (getAnyLatestRelease c ctx owner repo).2 = [ClientCall.getLatestRelease ctx owner repo] ∨
    (getAnyLatestRelease c ctx owner repo).2 =
      [ClientCall.getLatestRelease ctx owner repo,
       ClientCall.listReleases ctx owner repo { page := 0, perPage := 1 }] := by
  unfold getAnyLatestRelease
  split
  · left; rfl
  · split
    · split
      · right; rfl
      · split
        · right; rfl
        · right; rfl
    · left; rfl

/-- Every call made by `getAnyLatestRelease` carries the context it was
given. -/
theorem anyLatest_ctx (c : Client) (ctx : Ctx) (owner repo : String) :
    ∀ call ∈ (getAnyLatestRelease c ctx owner repo).2, call.callCtx = ctx := by
  rcases anyLatest_trace_shape c ctx owner repo with h | h <;> rw [h] <;>
    intro call hcall <;> simp only [List.mem_cons, List.mem_singleton,
      List.not_mem_nil, or_false] at hcall
  · subst hcall; rfl
  · rcases hcall with rfl | rfl <;> rfl

/-- Every call made by `fetchRelease` carries `context.TODO()`. -/
theorem fetchRelease_ctx (g : gitHub) (c : Client) :
    ∀ call ∈ (fetchRelease g c).2, call.callCtx = Ctx.todo := by
  unfold fetchRelease
  split
  · intro call hcall
    simp only [List.mem_singleton] at hcall
    subst hcall; rfl
  · exact anyLatest_ctx c Ctx.todo g.owner g.repo

/-- `Fetch` makes exactly the client calls of its release-resolution
phase. -/
theorem Fetch_trace (g : gitHub) (c : Client) (ext : Collaborators) :
    (Fetch g c ext).2 = (fetchRelease g c).2 := by
  unfold Fetch
  dsimp only
  split
  · rfl
  · split
    · rfl
    · split
      · rfl
      · rfl

/-- `Fetch` propagates a release-resolution error unchanged. -/
theorem Fetch_error (g : gitHub) (c : Client) (ext : Collaborators) (e : GoError)
    (h : (fetchRelease g c).1 = Except.error e) :
    (Fetch g c ext).1 = Except.error e := by
  unfold Fetch
  dsimp only
  split
  · next err heq => rw [h] at heq; cases heq; rfl
  · next release heq => rw [h] at heq; cases heq

/-- `GetLatestVersion` makes exactly the calls of `getAnyLatestRelease`
under `context.TODO()`. -/
theorem GetLatestVersion_trace (g : gitHub) (c : Client) :
    (GetLatestVersion g c).2 = (getAnyLatestRelease c Ctx.todo g.owner g.repo).2 := by
  unfold GetLatestVersion
  split
  · next heq => rw [heq]
  · next heq => rw [heq]

/-! ## Claim theorems -/

/-- C1: on a resolution with an empty pinned tag, when `GetLatestRelease`
fails with a 404 `ErrorResponse` (the not-found classification
specifically) and `ListReleases` returns a non-empty list, the release
resolver returns the first listed entry. -/
theorem empty_tag_falls_back_to_first_listed (g : gitHub) (c : Client)
    (e : GoError) (r1 : RepositoryRelease) (rs : List RepositoryRelease)
    (htag : g.tag = "")
    (hlatest : c.getLatestRelease g.owner g.repo = Except.error e)
    (hnf : isNotFoundErrorResponse e = true)
    (hlist : c.listReleases g.owner g.repo { page := 0, perPage := 1 } =
      Except.ok (r1 :: rs)) :
    (fetchRelease g c).1 = Except.ok r1 := by
  unfold fetchRelease
  rw [htag]
  simp [getAnyLatestRelease, hlatest, hnf, hlist]

/-- Witness for C1 at a concrete client with two listed releases. -/
theorem empty_tag_falls_back_to_first_listed_witness :
    wLatestHandle.tag = "" ∧
    (fetchRelease wLatestHandle wClientFallback).1 = Except.ok wRelease1 :=
  ⟨rfl, empty_tag_falls_back_to_first_listed wLatestHandle wClientFallback
    wNotFound wRelease1 [wRelease2] rfl rfl rfl rfl⟩

/-- C2: on a resolution with an empty pinned tag, when `GetLatestRelease`
fails with a 404 `ErrorResponse` and the fallback listing succeeds but is
empty, `Fetch` fails with exactly the original not-found error. -/
theorem empty_list_returns_original_not_found (g : gitHub) (c : Client)
    (ext : Collaborators) (e : GoError)
    (htag : g.tag = "")
    (hlatest : c.getLatestRelease g.owner g.repo = Except.error e)
    (hnf : isNotFoundErrorResponse e = true)
    (hlist : c.listReleases g.owner g.repo { page := 0, perPage := 1 } =
      Except.ok []) :
    (Fetch g c ext).1 = Except.error e := by
  apply Fetch_error
  unfold fetchRelease
  rw [htag]
  simp [getAnyLatestRelease, hlatest, hnf, hlist]

/-- Witness for C2 at a concrete client with an empty listing. -/
theorem empty_list_returns_original_not_found_witness :
    wLatestHandle.tag = "" ∧ isNotFoundErrorResponse wNotFound = true ∧
    (Fetch wLatestHandle wClientEmptyList wCollab).1 = Except.error wNotFound :=
  ⟨rfl, rfl, empty_list_returns_original_not_found wLatestHandle wClientEmptyList
    wCollab wNotFound rfl rfl rfl rfl⟩

/-- C10: on a resolution with an empty pinned tag, when `GetLatestRelease`
fails with a 404 `ErrorResponse` and the fallback listing call itself
fails, `Fetch` returns the listing error, not the original not-found
error. -/
theorem listing_error_replaces_original_not_found (g : gitHub) (c : Client)
    (ext : Collaborators) (e listErr : GoError)
    (htag : g.tag = "")
    (hlatest : c.getLatestRelease g.owner g.repo = Except.error e)
    (hnf : isNotFoundErrorResponse e = true)
    (hlist : c.listReleases g.owner g.repo { page := 0, perPage := 1 } =
      Except.error listErr) :
    (Fetch g c ext).1 = Except.error listErr := by
  apply Fetch_error
  unfold fetchRelease
  rw [htag]
  simp [getAnyLatestRelease, hlatest, hnf, hlist]

/-- Witness for C10 at a concrete client whose listing call fails. -/
theorem listing_error_replaces_original_not_found_witness :
    wLatestHandle.tag = "" ∧
    (Fetch wLatestHandle wClientListError wCollab).1 =
      Except.error (GoError.other "listing failed") :=
  ⟨rfl, listing_error_replaces_original_not_found wLatestHandle wClientListError
    wCollab wNotFound (GoError.other "listing failed") rfl rfl rfl rfl⟩

/-- C5: on a resolution with a non-empty pinned tag, the only outbound
client call is `GetReleaseByTag`, and any error from it is returned to the
caller unchanged; the listing fallback is never attempted. -/
theorem pinned_tag_no_fallback (g : gitHub) (c : Client) (ext : Collaborators)
    (htag : 0 < g.tag.length) :
    (Fetch g c ext).2 = [ClientCall.getReleaseByTag Ctx.todo g.owner g.repo g.tag] ∧
    ∀ e : GoError, c.getReleaseByTag g.owner g.repo g.tag = Except.error e →
      (Fetch g c ext).1 = Except.error e := by
  have hfr : fetchRelease g c =
      (c.getReleaseByTag g.owner g.repo g.tag,
       [ClientCall.getReleaseByTag Ctx.todo g.owner g.repo g.tag]) := by
    unfold fetchRelease
    rw [if_pos htag]
  constructor
  · rw [Fetch_trace, hfr]
  · intro e he
    apply Fetch_error
    rw [hfr]
    exact he

/-- Witness for C5 at a concrete client whose pinned tag is missing. -/
theorem pinned_tag_no_fallback_witness :
    0 < wPinnedHandle.tag.length ∧
    ((Fetch wPinnedHandle wClientNoSuchTag wCollab).2 =
      [ClientCall.getReleaseByTag Ctx.todo "marcosnils" "bin" "v1.0.0"] ∧
     ∀ e : GoError,
       wClientNoSuchTag.getReleaseByTag "marcosnils" "bin" "v1.0.0" = Except.error e →
       (Fetch wPinnedHandle wClientNoSuchTag wCollab).1 = Except.error e) :=
  ⟨by decide, pinned_tag_no_fallback wPinnedHandle wClientNoSuchTag wCollab (by decide)⟩

/-- C7: the candidate list is a pure, order-preserving projection of the
release's attachment list: same length, and the i-th candidate carries the
i-th attachment's display name and direct browser-download URL. -/
theorem candidates_preserve_attachments (as : List ReleaseAsset) :
    (buildCandidates as).length = as.length ∧
    ∀ i : Nat, (buildCandidates as)[i]? =
      (as[i]?).map (fun a => { name := a.getName, url := a.getBrowserDownloadURL }) := by
  rw [buildCandidates_eq_map]
  exact ⟨List.length_map _ _, fun i => List.getElem?_map _ _ _⟩

/-- Witness for C7 at a concrete two-attachment release. -/
theorem candidates_preserve_attachments_witness :
    (buildCandidates wRelease1.assets).length = wRelease1.assets.length ∧
    ∀ i : Nat, (buildCandidates wRelease1.assets)[i]? =
      (wRelease1.assets[i]?).map
        (fun a => { name := a.getName, url := a.getBrowserDownloadURL }) :=
  candidates_preserve_attachments wRelease1.assets

/-- C8: every successful `Fetch` returns an artifact whose hash is the
fresh, empty SHA-256 accumulator (its digest over zero fed bytes is the
well-known empty-input digest), whose version is the resolved release's
tag name, and whose name is the sanitized asset name combined with that
tag. -/
theorem fetch_artifact_fresh_hash (g : gitHub) (c : Client) (ext : Collaborators)
    (release : RepositoryRelease) (gf : Asset) (nm : String) (dataFile : FileData)
    (hrel : (fetchRelease g c).1 = Except.ok release)
    (hfa : ext.filterAssets g.repo (buildCandidates release.assets) = Except.ok gf)
    (hpu : ext.processURL gf = Except.ok (nm, dataFile)) :
    (Fetch g c ext).1 = Except.ok
      { data := dataFile,
        name := ext.sanitizeName nm release.getTagName,
        hash := sha256New,
        version := release.getTagName } ∧
    hashSum sha256New = sha256EmptyDigest := by
  constructor
  · unfold Fetch
    dsimp only
    split
    · next err heq => rw [hrel] at heq; cases heq
    · next rel heq =>
      rw [hrel] at heq
      cases heq
      rw [hfa]
      dsimp only
      rw [hpu]
  · decide

/-- Witness for C8 at a concrete pinned resolution. -/
theorem fetch_artifact_fresh_hash_witness :
    (Fetch wPinnedHandle wClientPinnedOk wCollab).1 = Except.ok
      { data := "https://example.invalid/a1",
        name := wCollab.sanitizeName "bin_linux_amd64" wRelease1.getTagName,
        hash := sha256New,
        version := wRelease1.getTagName } ∧
    hashSum sha256New = sha256EmptyDigest :=
  fetch_artifact_fresh_hash wPinnedHandle wClientPinnedOk wCollab wRelease1
    { name := "bin_linux_amd64", url := "https://example.invalid/a1" }
    "bin_linux_amd64" "https://example.invalid/a1" rfl rfl rfl

/-- C6: for a release-view path `/owner/repo/releases/tag/v1.2.3` (owner
and repo being any segments other than `releases`), the extracted tag is
exactly `v1.2.3`; checked both on the tag-extraction loop over the split
segments and on `newGitHub` at a concrete URL path. -/
theorem release_tag_url_extracts_exact_tag (owner repo : String)
    (h1 : owner ≠ "releases") (h2 : repo ≠ "releases") :
    tagLoop ["", owner, repo, "releases", "tag", "v1.2.3"] = Except.ok "v1.2.3" ∧
    (newGitHub "/marcosnils/bin/releases/tag/v1.2.3").map gitHub.tag =
      Except.ok "v1.2.3" := by
  constructor
  · simp [tagLoop, tagLoopAux, h1, h2, goJoin]
  · rfl

/-- Witness for C6 at concrete owner and repo segments. -/
theorem release_tag_url_extracts_exact_tag_witness :
    ("marcosnils" : String) ≠ "releases" ∧
    (tagLoop ["", "marcosnils", "bin", "releases", "tag", "v1.2.3"] =
       Except.ok "v1.2.3" ∧
     (newGitHub "/marcosnils/bin/releases/tag/v1.2.3").map gitHub.tag =
       Except.ok "v1.2.3") :=
  ⟨by decide, release_tag_url_extracts_exact_tag "marcosnils" "bin"
    (by decide) (by decide)⟩

/-- C3 counterexample: for the download path
`/marcosnils/bin/releases/download/v1.2.3/asset.tar.gz` the parser
extracts `v1.2.3/asset.tar.gz` — the asset-name segment is kept — so the
extracted tag is not the single segment `v1.2.3` the claim states. -/
theorem download_url_tag_keeps_asset_name :
    (newGitHub "/marcosnils/bin/releases/download/v1.2.3/asset.tar.gz").map gitHub.tag =
      Except.ok "v1.2.3/asset.tar.gz" ∧
    ("v1.2.3/asset.tar.gz" : String) ≠ "v1.2.3" :=
  ⟨rfl, by decide⟩

/-- C3 amended: for a download path
`/owner/repo/releases/download/v1.2.3/asset.tar.gz` (owner and repo being
any segments other than `releases`), the extracted tag is the join of all
segments after the qualifier — `v1.2.3/asset.tar.gz`, asset name
included. -/
theorem download_url_tag_joins_trailing_segments (owner repo : String)
    (h1 : owner ≠ "releases") (h2 : repo ≠ "releases") :
    tagLoop ["", owner, repo, "releases", "download", "v1.2.3", "asset.tar.gz"] =
      Except.ok "v1.2.3/asset.tar.gz" ∧
    (newGitHub "/marcosnils/bin/releases/download/v1.2.3/asset.tar.gz").map gitHub.tag =
      Except.ok "v1.2.3/asset.tar.gz" := by
  constructor
  · simp [tagLoop, tagLoopAux, h1, h2, goJoin]
  · rfl

/-- Witness for the amended C3 at concrete owner and repo segments. -/
theorem download_url_tag_joins_trailing_segments_witness :
    ("marcosnils" : String) ≠ "releases" ∧
    (tagLoop ["", "marcosnils", "bin", "releases", "download", "v1.2.3", "asset.tar.gz"] =
       Except.ok "v1.2.3/asset.tar.gz" ∧
     (newGitHub "/marcosnils/bin/releases/download/v1.2.3/asset.tar.gz").map gitHub.tag =
       Except.ok "v1.2.3/asset.tar.gz") :=
  ⟨by decide, download_url_tag_joins_trailing_segments "marcosnils" "bin"
    (by decide) (by decide)⟩

/-- C4: the path `/marcosnils` has one non-empty segment; its raw split
`["", "marcosnils"]` has length 2, so the `len(s) < 2` guard does not
fire and the subsequent `s[2]` access panics (index out of range) instead
of producing the malformed-reference error the claim requires. -/
theorem single_segment_path_panics :
    goSplitSlash "/marcosnils" = ["", "marcosnils"] ∧
    newGitHub "/marcosnils" =
      Except.error (ParseError.panicked GoPanic.indexOutOfRange) ∧
    ParseError.panicked GoPanic.indexOutOfRange ≠ ParseError.malformedReference :=
  ⟨rfl, rfl, by decide⟩

/-- C9 counterexample: in a concrete unpinned resolution, the outbound
call trace of `Fetch` carries `context.TODO()` — the internally
constructed empty context, which is not cancellation-aware — so no
caller-supplied cancellation-aware context value is threaded to the
provider call. -/
theorem fetch_context_not_caller_supplied :
    (Fetch wLatestHandle wClientLatestOk wCollab).2 =
      [ClientCall.getLatestRelease Ctx.todo "marcosnils" "bin"] ∧
    ctxCancellationAware Ctx.todo = false :=
  ⟨rfl, rfl⟩

/-- C9 amended: `Fetch` and `GetLatestVersion` take no context parameter;
every outbound client call they make carries the internally constructed
`context.TODO()`.  Only the internal helper `getAnyLatestRelease` threads
its context parameter through each of its outbound calls. -/
theorem outbound_calls_use_internal_todo_context (g : gitHub) (c : Client)
    (ext : Collaborators) (ctx : Ctx) (owner repo : String) :
    (∀ call ∈ (Fetch g c ext).2, call.callCtx = Ctx.todo) ∧
    (∀ call ∈ (GetLatestVersion g c).2, call.callCtx = Ctx.todo) ∧
    (∀ call ∈ (getAnyLatestRelease c ctx owner repo).2, call.callCtx = ctx) := by
  refine ⟨?_, ?_, anyLatest_ctx c ctx owner repo⟩
  · rw [Fetch_trace]
    exact fetchRelease_ctx g c
  · rw [GetLatestVersion_trace]
    exact anyLatest_ctx c Ctx.todo g.owner g.repo

/-- Witness for the amended C9 at concrete inputs, including a
caller-style cancellable context for the helper. -/
theorem outbound_calls_use_internal_todo_context_witness :
    (∀ call ∈ (Fetch wPinnedHandle wClientPinnedOk wCollab).2, call.callCtx = Ctx.todo) ∧
    (∀ call ∈ (GetLatestVersion wPinnedHandle wClientPinnedOk).2, call.callCtx = Ctx.todo) ∧
    (∀ call ∈ (getAnyLatestRelease wClientPinnedOk (Ctx.cancellable 7) "marcosnils" "bin").2,
      call.callCtx = Ctx.cancellable 7) :=
  outbound_calls_use_internal_todo_context wPinnedHandle wClientPinnedOk wCollab
    (Ctx.cancellable 7) "marcosnils" "bin"
